import Mathlib

/-!
Verification of the Sentinel trading bot core (`live_trading_bot.py`,
`strategy/tpsl_calculator.py`, `risk/pnl_guard.py`, `hedge_consolidation.py`)
against its natural-language specification.

Python floats are modelled as exact rationals (`ℚ`); Python's `round`
(banker's rounding) and `int` (truncation toward zero) are modelled exactly.
-/

namespace Sentinel

/-- Python's `round(x)`: nearest integer, ties to even. -/
def rhe (x : ℚ) : ℤ :=
  let f := ⌊x⌋
  let r := x - f
  if r < 1/2 then f
  else if 1/2 < r then f + 1
  else if f % 2 = 0 then f else f + 1

/-- Python's `round(x, d)`: round to `d` decimal places, ties to even. -/
def roundDec (x : ℚ) (d : ℕ) : ℚ := (rhe (x * 10 ^ d) : ℚ) / 10 ^ d

/-- Python's `int(x)`: truncation toward zero. -/
def truncQ (x : ℚ) : ℤ := if x < 0 then ⌈x⌉ else ⌊x⌋

/-- Python's binary `max`. -/
def qmax (a b : ℚ) : ℚ := if a ≤ b then b else a

/-- Python's `abs`. -/
def qabs (a : ℚ) : ℚ := if a < 0 then -a else a

/-- Python's `str.upper()` for the ASCII regime/class labels used by the
source. -/
def upper (s : String) : String := ⟨s.data.map Char.toUpper⟩

/-- Trade direction; the source uses the strings `'LONG'` / `'SHORT'`. -/
inductive Direction
  | LONG
  | SHORT
deriving DecidableEq, Repr

/-- Configuration of `TPSLCalculator` (`strategy/tpsl_calculator.py`,
`__init__`). -/
structure TPSLCalculator where
  min_rr_ratio : ℚ
  max_rr_ratio : ℚ
  base_sl_multiplier : ℚ
  base_tp_multiplier : ℚ
deriving DecidableEq, Repr

/-- The calculator instance built by `SentinelLiveTradingBot.__init__`:
`TPSLCalculator(min_rr_ratio=1.2, max_rr_ratio=3.0, base_sl_multiplier=1.0,
base_tp_multiplier=1.0)`. -/
def botCalculator : TPSLCalculator :=
  { min_rr_ratio := 12/10, max_rr_ratio := 3
    base_sl_multiplier := 1, base_tp_multiplier := 1 }

/-- `TPSLCalculator._get_regime_multipliers`: the per-regime
`(sl_multiplier, tp_multiplier)` table. -/
def TPSLCalculator.get_regime_multipliers (c : TPSLCalculator) (regime : String) :
    ℚ × ℚ :=
  let r := upper regime
  if r = "TREND_UP" ∨ r = "TREND_DOWN" then
    (5/2 * c.base_sl_multiplier, 5 * c.base_tp_multiplier)
  else if r = "RANGE" ∨ r = "MEAN_REVERSION" then
    (2 * c.base_sl_multiplier, 7/2 * c.base_tp_multiplier)
  else if r = "VOLATILITY_COMPRESSION" then
    (9/5 * c.base_sl_multiplier, 3 * c.base_tp_multiplier)
  else if r = "HIGH_VOLATILITY" ∨ r = "VOLATILE" then
    (2 * c.base_sl_multiplier, 7/2 * c.base_tp_multiplier)
  else
    (1 * c.base_sl_multiplier, 2 * c.base_tp_multiplier)

/-- Result of `TPSLCalculator.calculate_tp_sl`. The Python function also
returns a human-readable reasoning string (`_generate_reasoning`), used only
for audit logging; it carries no numeric content and is not modelled. -/
structure TPSLPlan where
  take_profit : ℚ
  stop_loss : ℚ
  risk_reward : ℚ
deriving DecidableEq, Repr

/-- `TPSLCalculator.calculate_tp_sl`. The Python function raises `ValueError`
on an invalid signal (impossible here, the direction is typed), a confidence
outside `[0,1]`, or a non-positive entry price or ATR; those paths are
modelled as `none`. -/
def TPSLCalculator.calculate_tp_sl (c : TPSLCalculator) (entry_price : ℚ)
    (signal : Direction) (confidence : ℚ) (regime : String)
    (volatility_atr : ℚ) : Option TPSLPlan :=
  if ¬ (0 ≤ confidence ∧ confidence ≤ 1) then none
  else if entry_price ≤ 0 ∨ volatility_atr ≤ 0 then none
  else
    -- Step 1.5: ATR floor at 1.2% of entry
    let min_atr := entry_price * (12/1000)
    let effective_atr := qmax volatility_atr min_atr
    -- Step 1: regime multipliers
    let m := c.get_regime_multipliers regime
    let sl_mult := m.1
    let tp_mult := m.2
    -- Step 2: distances
    let sl_distance := effective_atr * sl_mult
    let tp_distance0 := effective_atr * tp_mult
    -- Step 3: confidence scaling of the target distance
    let confidence_factor := 8/10 + confidence * (4/10)
    let tp_distance1 := tp_distance0 * confidence_factor
    -- Step 4: prices
    let stop_loss := match signal with
      | .LONG => entry_price - sl_distance
      | .SHORT => entry_price + sl_distance
    let take_profit1 := match signal with
      | .LONG => entry_price + tp_distance1
      | .SHORT => entry_price - tp_distance1
    -- Step 5: enforce the minimum risk-reward ratio by widening the target
    let actual_rr := tp_distance1 / sl_distance
    let adjust := actual_rr < c.min_rr_ratio
    let tp_distance := if adjust then sl_distance * c.min_rr_ratio else tp_distance1
    let take_profit := if adjust then
        (match signal with
          | .LONG => entry_price + tp_distance
          | .SHORT => entry_price - tp_distance)
      else take_profit1
    let rr := if adjust then c.min_rr_ratio else actual_rr
    -- Step 6: round to 4 decimal places
    some { take_profit := roundDec take_profit 4
           stop_loss := roundDec stop_loss 4
           risk_reward := rr }

/-- `TPSLCalculator.validate_tp_sl`, returning the boolean validity flag
(the accompanying message string is not modelled). The `None` checks of the
Python code are unrepresentable here since prices are typed. -/
def TPSLCalculator.validate_tp_sl (c : TPSLCalculator) (entry_price take_profit
    stop_loss : ℚ) (signal : Direction) : Bool :=
  if take_profit ≤ 0 ∨ stop_loss ≤ 0 then false
  else if (match signal with
    | .LONG => decide (stop_loss ≥ entry_price ∨ take_profit ≤ entry_price)
    | .SHORT => decide (stop_loss ≤ entry_price ∨ take_profit ≥ entry_price) : Bool)
  then false
  else
    let risk := match signal with
      | .LONG => entry_price - stop_loss
      | .SHORT => stop_loss - entry_price
    let reward := match signal with
      | .LONG => take_profit - entry_price
      | .SHORT => entry_price - take_profit
    if risk ≤ 0 then false
    else if reward / risk < c.min_rr_ratio then false
    else true

/-- `TPSLCalculator.calculate_dynamic_tpsl`: wraps `calculate_tp_sl`,
returning a payload with `valid = validate_tp_sl ...`; exceptions become
`{'valid': False}`. Modelled as `some plan` exactly when the bot would see
`valid = True`. -/
def TPSLCalculator.calculate_dynamic_tpsl (c : TPSLCalculator) (entry_price : ℚ)
    (direction : Direction) (volatility_atr : ℚ) (regime : String)
    (confidence : ℚ) : Option TPSLPlan :=
  match c.calculate_tp_sl entry_price direction confidence regime volatility_atr with
  | none => none
  | some p =>
      if c.validate_tp_sl entry_price p.take_profit p.stop_loss direction
      then some p else none

/-! ## Symbol rules, rounding, and position sizing (`live_trading_bot.py`) -/

/-- Exchange symbol rules, fetched once per symbol (`sync_state`). The code
falls back to `{'min_qty': 0.001, 'qty_step': 0.001}` / `price_step 0.1`
when a symbol is missing; callers below receive the already-resolved rules. -/
structure SymbolRules where
  min_qty : ℚ
  qty_step : ℚ
  price_step : ℚ
deriving DecidableEq, Repr

/-- The default rules used by `round_size_to_rules` when the symbol is not in
`self.symbol_rules`. -/
def defaultRules : SymbolRules :=
  { min_qty := 1/1000, qty_step := 1/1000, price_step := 1/10 }

/-- `decimals` as computed in `round_size_to_rules`:
`int(-math.log10(step_size))` when `step_size < 1`, else `0`. For
`0 < step < 1`, `-log10 step = log10 (1/step) > 0`, and `int` truncation
is its floor, i.e. `Nat.log 10 ⌊1/step⌋`. -/
def decimalsFor (step : ℚ) : ℕ :=
  if step < 1 then Nat.log 10 (Int.toNat ⌊1/step⌋) else 0

/-- Python's `max` on two integers. -/
def zmax (a b : ℤ) : ℤ := if a ≤ b then b else a

/-- `SentinelLiveTradingBot.round_size_to_rules` (first component of the
returned tuple; the other two components are the rules themselves). -/
def round_size_to_rules (rules : SymbolRules) (raw_size : ℚ) : ℚ :=
  let min_qty := rules.min_qty
  if raw_size ≤ 0 then 0
  else
    let step_size := if rules.qty_step ≤ 0
      then (if min_qty > 0 then min_qty else 1) else rules.qty_step
    let raw := if raw_size < min_qty then min_qty else raw_size
    let steps := zmax 1 ⌊raw / step_size⌋
    let final_size := (steps : ℚ) * step_size
    roundDec final_size (decimalsFor step_size)

/-- `SentinelLiveTradingBot.round_price_to_step`. -/
def round_price_to_step (value price_step : ℚ) : ℚ :=
  let rounded := roundDec ((rhe (value / price_step) : ℚ) * price_step) 4
  if price_step ≥ 1 then (truncQ rounded : ℚ) else rounded

/-- The raw risk-based quantity of
`SentinelLiveTradingBot.calculate_position_size` after the pre-rounding
notional cap (`raw_size` just before `round_size_to_rules` is applied). -/
def capped_raw_size (equity max_notional_usd : ℚ)
    (price stop_loss risk_pct : ℚ) : ℚ :=
  let stop_distance := qabs (price - stop_loss)
  let risk_capital := equity * risk_pct
  let raw_size0 := risk_capital / stop_distance
  -- Cap by local notional guard before rounding
  if price * raw_size0 > max_notional_usd then max_notional_usd / price
  else raw_size0

/-- `SentinelLiveTradingBot.calculate_position_size`. `equity` is
`self.current_equity` and `max_notional_usd` the bot's notional ceiling
(`200` in `__init__`). -/
def calculate_position_size (equity max_notional_usd : ℚ) (rules : SymbolRules)
    (price stop_loss risk_pct : ℚ) : ℚ :=
  if price ≤ 0 ∨ stop_loss ≤ 0 then 0
  else
    let stop_distance := qabs (price - stop_loss)
    if stop_distance ≤ 0 then 0
    else
      let raw_size := capped_raw_size equity max_notional_usd price stop_loss risk_pct
      let final_size := round_size_to_rules rules raw_size
      -- Re-apply notional cap after rounding
      if final_size * price > max_notional_usd then
        round_size_to_rules rules (max_notional_usd / price)
      else final_size

/-! ## PnLGuard (`risk/pnl_guard.py`) -/

/-- State of `PnLGuard`. -/
structure PnLGuard where
  max_drawdown_pct : ℚ
  peak_equity : Option ℚ
  trading_halted : Bool
deriving DecidableEq, Repr

/-- `PnLGuard.__init__`. -/
def PnLGuard.init (max_drawdown_pct : ℚ) : PnLGuard :=
  { max_drawdown_pct := max_drawdown_pct, peak_equity := none, trading_halted := false }

/-- `PnLGuard.update`. -/
def PnLGuard.update (g : PnLGuard) (equity : ℚ) : PnLGuard :=
  match g.peak_equity with
  | none => { g with peak_equity := some equity }
  | some pk =>
      let peak := qmax pk equity
      let drawdown := (peak - equity) / peak
      if drawdown ≥ g.max_drawdown_pct then
        { g with peak_equity := some peak, trading_halted := true }
      else
        { g with peak_equity := some peak }

/-- `PnLGuard.can_trade`. -/
def PnLGuard.can_trade (g : PnLGuard) : Bool := !g.trading_halted

/-- `PnLGuard.reset`. -/
def PnLGuard.reset (g : PnLGuard) : PnLGuard :=
  { g with peak_equity := none, trading_halted := false }

/-- `PnLGuard.force_unhalt`. -/
def PnLGuard.force_unhalt (g : PnLGuard) : PnLGuard :=
  { g with trading_halted := false }

/-! ## Trade records (`self.active_trades` entries) -/

/-- A per-trade metadata dict as stored in `self.active_trades[symbol]`.
Keys that some writers omit (and that readers fetch with `.get`) are
`Option`s; in particular `execute_trade`'s `trade_payload` sets neither
`risk_pct`, `trade_class` nor `profit_lock_tier`. Audit-only fields of the
legacy payloads (`runner_size`, `tp1`, `tp2`) are not modelled. -/
structure Trade where
  symbol : String
  order_id : Option String
  direction : Option Direction
  trade_class : Option String
  risk_pct : Option ℚ
  size : ℚ
  entry_price : Option ℚ
  stop_loss : Option ℚ
  take_profit : Option ℚ
  atr : ℚ
  entry_time : Option ℚ
  profit_lock_tier : Option ℕ
  sl_placed : Bool
  breakeven_set : Bool
  breakeven_trigger : Option ℚ
deriving DecidableEq, Repr

/-- The `trade_payload` dict built at the end of `execute_trade` and passed
to `register_active_trade`. Note: it carries no `risk_pct`, `trade_class`
or `profit_lock_tier` key. -/
def trade_payload (symbol : String) (order_id : Option String)
    (direction : Direction) (size price sl_price primary_tp atr now : ℚ) :
    Trade :=
  { symbol := symbol
    order_id := order_id
    direction := some direction
    trade_class := none
    risk_pct := none
    size := size
    entry_price := some price
    stop_loss := some sl_price
    take_profit := some primary_tp
    atr := atr
    entry_time := some now
    profit_lock_tier := none
    sl_placed := false
    breakeven_set := false
    breakeven_trigger := some (match direction with
      | .LONG => price + atr * (3/2)
      | .SHORT => price - atr * (3/2)) }

/-- A stop order placed through
`adapter.place_tp_sl_order('loss_plan', trigger, size, side)`. -/
structure PlacedStop where
  trigger_price : ℚ
  size : ℚ
  side : Direction
deriving DecidableEq, Repr

/-- The locked-profit percentage of each tier in `manage_active_trades`
(tier 1 ↦ 0.1, tier 2 ↦ 1.0, tier 3 ↦ 3.0). -/
def lockedProfitPct (tier : ℕ) : ℚ :=
  if tier ≥ 3 then 3 else if tier ≥ 2 then 1 else 1/10

/-- The loop body of `SentinelLiveTradingBot.manage_active_trades` for one
trade: computes ROI, the profit-lock tier, and (on a tier upgrade) places a
replacement stop order; the trade record is updated only when the adapter
call succeeds (`sl_update_ok` models `_tp_sl_success(sl_res)`). -/
def manage_trade_step (rules : SymbolRules) (current_price : ℚ)
    (sl_update_ok : Bool) (trade : Trade) : Trade × List PlacedStop :=
  match trade.direction with
  | none => (trade, [])
  | some dir =>
    let full_size := trade.size
    let entry_price := trade.entry_price.getD 0
    if full_size ≤ 0 ∨ entry_price ≤ 0 then (trade, [])
    else if current_price ≤ 0 then (trade, [])
    else
      let roi_pct : ℚ := match dir with
        | .LONG => (current_price - entry_price) / entry_price * 100
        | .SHORT => (entry_price - current_price) / entry_price * 100
      let lock_tier : ℕ :=
        if roi_pct ≥ 10 then 3
        else if roi_pct ≥ 5 then 2
        else if roi_pct ≥ 2 then 1
        else 0
      let current_tier := trade.profit_lock_tier.getD 0
      if lock_tier > current_tier then
        let locked_profit_pct := lockedProfitPct lock_tier
        let new_sl := match dir with
          | .LONG => entry_price * (1 + locked_profit_pct / 100)
          | .SHORT => entry_price * (1 - locked_profit_pct / 100)
        let new_sl_rounded := round_price_to_step new_sl rules.price_step
        let rounded_size := round_size_to_rules rules full_size
        let order : PlacedStop :=
          { trigger_price := new_sl_rounded, size := rounded_size, side := dir }
        if sl_update_ok then
          ({ trade with profit_lock_tier := some lock_tier
                        stop_loss := some new_sl_rounded }, [order])
        else (trade, [order])
      else (trade, [])

/-- `SentinelLiveTradingBot.manage_active_trades` on one symbol's trade
list. The adapter outcome of each stop-replacement call is drawn from
`oks` in order (`true` when exhausted). -/
def manage_active_trades (rules : SymbolRules) (current_price : ℚ) :
    List Bool → List Trade → List Trade × List PlacedStop
  | _, [] => ([], [])
  | oks, t :: ts =>
      let r := manage_trade_step rules current_price (oks.headD true) t
      let rest := manage_active_trades rules current_price
        (if r.2.isEmpty then oks else oks.tail) ts
      (r.1 :: rest.1, r.2 ++ rest.2)

/-- Iterated `manage_trade_step` on one trade across a sequence of ticks:
each step supplies the current price and the adapter outcome. -/
def manage_run (rules : SymbolRules) (steps : List (ℚ × Bool)) (t : Trade) :
    Trade :=
  steps.foldl (fun tr s => (manage_trade_step rules s.1 s.2 tr).1) t

/-! ## Portfolio state and the trade-admission gate -/

/-- `dict.get(key, default)` on a string-keyed dict modelled as an
association list. -/
def lookupD {α : Type} (m : List (String × α)) (s : String) (d : α) : α :=
  match m.find? (fun p => decide (p.1 = s)) with
  | some p => p.2
  | none => d

/-- `dict[key] = value` where `key` is already present. -/
def setK {α : Type} (m : List (String × α)) (s : String) (v : α) :
    List (String × α) :=
  m.map (fun p => if p.1 = s then (p.1, v) else p)

/-- The in-memory bot state touched by the admission gate: per-symbol net
position (`self.positions`) and per-symbol trade metadata
(`self.active_trades`). -/
structure BotState where
  positions : List (String × ℚ)
  active_trades : List (String × List Trade)
deriving Repr

/-- `self.portfolio_risk_cap` (`__init__`): 3% across open positions. -/
def portfolio_risk_cap : ℚ := 3/100

/-- `SentinelLiveTradingBot.current_portfolio_risk`: sums
`t.get('risk_pct', 0.0)` over every trade of every symbol. -/
def current_portfolio_risk (active : List (String × List Trade)) : ℚ :=
  (active.map (fun p => (p.2.map (fun t => t.risk_pct.getD 0)).sum)).sum

/-- `SentinelLiveTradingBot.cleanup_inactive_trades`: wipes a symbol's
metadata when the exchange position is flat and every trade is older than
the 5-minute fill grace period. -/
def cleanup_inactive_trades (now : ℚ) (positions : List (String × ℚ))
    (active : List (String × List Trade)) : List (String × List Trade) :=
  active.map (fun p =>
    if p.2.isEmpty then p
    else if qabs (lookupD positions p.1 0) ≤ 0 then
      if p.2.all (fun t => decide (¬ (now - t.entry_time.getD 0 < 300))) then
        (p.1, [])
      else p
    else p)

/-- `SentinelLiveTradingBot.can_open_trade`. The Python method first runs
`cleanup_inactive_trades` (a mutation of `self.active_trades`); here the
decision is computed on the cleaned state. -/
def can_open_trade (now : ℚ) (st : BotState) (symbol : String)
    (direction : Direction) (trade_class : String) (risk_pct price : ℚ)
    (confidence : ℚ) : Bool :=
  let activeAll := cleanup_inactive_trades now st.positions st.active_trades
  -- Portfolio-level risk cap
  if current_portfolio_risk activeAll + risk_pct > portfolio_risk_cap then false
  else
    let active := lookupD activeAll symbol []
    let existing_pos := lookupD st.positions symbol 0
    if qabs existing_pos > 0 ∧ active.length = 0 then false
    -- Time-based position timeout (>24h allows a new entry)
    else if active.any (fun t => decide ((now - t.entry_time.getD now) / 3600 > 24))
    then true
    else if trade_class = "SCALP" ∧ active.length > 0 then false
    else
      let trend_trades := active.filter (fun t => decide (t.trade_class ≠ some "SCALP"))
      match trend_trades.getLast? with
      | none => true
      | some last =>
          if trend_trades.length ≥ 2 then false
          else
            let last_entry := last.entry_price.getD price
            let move : ℚ := match direction with
              | .LONG => price - last_entry
              | .SHORT => last_entry - price
            if move ≤ 0 then
              -- Ultra-high conviction override
              if confidence ≥ 7/10 then true else false
            else true

/-! ## `execute_trade` (entry, protection placement, registration) -/

/-- Adapter calls made by `execute_trade`, in order. Logging, the AI-log
submission and the performance snapshot have no effect on trading state and
are not modelled. -/
inductive ExecAction
  | close_all (symbol : String)
  | place_order (direction : Direction) (size limit_price : ℚ)
  | place_tp (trigger size : ℚ) (side : Direction)
deriving DecidableEq, Repr

/-- Exchange responses consumed by one `execute_trade` call: the ATR
computed from market data, whether the execution guard admits the order,
whether the entry order is accepted (`status != 'rejected'` and no
`error`), the extracted order id, and whether the take-profit placement
succeeds (`_tp_sl_success(tp_res)`). -/
structure ExecEnv where
  atr : ℚ
  guard_allows : Bool
  order_accepted : Bool
  order_id : Option String
  tp_success : Bool
deriving Repr

/-- Result of one `execute_trade` call: the symbol's `active_trades` list,
the symbol's `positions` entry, the registered payload (if any), and the
adapter calls issued. -/
structure ExecResult where
  active : List Trade
  position : ℚ
  registered : Option Trade
  actions : List ExecAction
deriving Repr

/-- `SentinelLiveTradingBot.execute_trade` for one symbol. Faithful to the
source's control flow: pre-flip cleanup; ATR guard; TP/SL computation and
validity guard; risk-based sizing; execution guard; price-step fallback and
rounding; directional fix-ups; entry order; noise-absorption (the initial
stop order is NOT placed — only a log line is emitted); single take-profit
placement, with `close_all_positions` and no registration on failure;
registration of `trade_payload` on success. The legacy `tp1`/`tp2`/
`runner_size` values are computed only for logging and are not modelled.

The pre-flip cleanup (when `active_trades[symbol]` is non-empty) first
calls `self.adapter.cancel_all_plan_orders(symbol)`; `WeexExecutionAdapter`
has no such method, so the call raises `AttributeError` as its very first
statement, the surrounding `except` only logs, and neither
`close_all_positions` nor the `active_trades[symbol] = []` clear runs: the
cleanup changes nothing and execution continues with the old metadata
intact. -/
def execute_trade (cfg : TPSLCalculator) (rules : SymbolRules)
    (equity max_notional_usd : ℚ) (env : ExecEnv) (now : ℚ) (symbol : String)
    (direction : Direction) (confidence price : ℚ) (regime : String)
    (risk_pct : ℚ) (active0 : List Trade) (position0 : ℚ) : ExecResult :=
  -- Pre-trade cleanup: a no-op in effect (AttributeError on the missing
  -- cancel_all_plan_orders, caught and logged before anything else runs)
  let active1 : List Trade := active0
  let acts1 : List ExecAction := []
  let atr := env.atr
  if atr ≤ 0 then ⟨active1, position0, none, acts1⟩
  else
    match cfg.calculate_dynamic_tpsl price direction atr regime confidence with
    | none => ⟨active1, position0, none, acts1⟩
    | some tpsl =>
      let stop_loss_price := tpsl.stop_loss
      let size := calculate_position_size equity max_notional_usd rules price
        stop_loss_price risk_pct
      if size ≤ 0 then ⟨active1, position0, none, acts1⟩
      else if ¬ env.guard_allows then ⟨active1, position0, none, acts1⟩
      else
        let p_step := if rules.price_step ≤ 0 ∨ rules.price_step > price * (2/10)
          then qmax (price * (1/1000)) (1/10000) else rules.price_step
        let primary_tp0 := round_price_to_step tpsl.take_profit p_step
        let sl_price0 := round_price_to_step stop_loss_price p_step
        -- Ensure directional validity after rounding
        let sl_price := match direction with
          | .SHORT => if sl_price0 ≤ price
              then round_price_to_step (price * (101/100)) p_step else sl_price0
          | .LONG => if sl_price0 ≥ price
              then round_price_to_step (price * (99/100)) p_step else sl_price0
        let primary_tp := match direction with
          | .SHORT => if primary_tp0 ≥ price
              then round_price_to_step (price * (98/100)) p_step else primary_tp0
          | .LONG => if primary_tp0 ≤ price
              then round_price_to_step (price * (102/100)) p_step else primary_tp0
        let raw_limit := price * (match direction with
          | .LONG => 1001/1000
          | .SHORT => 999/1000)
        let limit_price := round_price_to_step raw_limit p_step
        let acts2 := acts1 ++ [ExecAction.place_order direction size limit_price]
        if ¬ env.order_accepted then ⟨active1, position0, none, acts2⟩
        else
          -- NOISE-ABSORPTION: immediate SL placement disabled; no stop
          -- order is issued here.
          let acts3 := acts2 ++ [ExecAction.place_tp primary_tp size direction]
          if ¬ env.tp_success then
            -- TP failed: close the position, do not register
            ⟨active1, position0, none, acts3 ++ [ExecAction.close_all symbol]⟩
          else
            let payload := trade_payload symbol env.order_id direction size
              price sl_price primary_tp atr now
            ⟨active1 ++ [payload],
             (match direction with | .LONG => size | .SHORT => -size),
             some payload, acts3⟩

/-! ## Reconciliation (`check_and_fix_plans`) -/

/-- A protective plan order as returned by `/capi/v2/order/currentPlan`:
`planType` (`loss_plan`/`profit_plan` on V1, else empty), `type`
(`CLOSE_LONG`/`CLOSE_SHORT` on V2), trigger price and status. -/
structure PlanOrder where
  planType : String
  otype : String
  triggerPrice : ℚ
  status : String
deriving DecidableEq, Repr

/-- An exchange position as read by `check_and_fix_plans`
(`active_pos_map` entry: absolute size, side, average entry price). -/
structure PosData where
  size : ℚ
  side : Direction
  entry : ℚ
deriving DecidableEq, Repr

/-- The status filter of the classification loop. -/
def plan_is_active (p : PlanOrder) : Bool :=
  decide (p.status = "active") || decide (p.status = "new") ||
  decide (p.status = "UNTRIGGERED") || decide (p.status = "NEW")

/-- Classification of an active plan order as a stop-loss: explicit
`planType`, else inferred from the trigger price vs the entry for V2
close-type orders. -/
def is_sl_order (pos : PosData) (p : PlanOrder) : Bool :=
  plan_is_active p &&
  (if p.planType = "loss_plan" then true
   else if p.planType = "profit_plan" then false
   else if p.otype = "CLOSE_LONG" ∨ p.otype = "CLOSE_SHORT" then
     (match pos.side with
      | .LONG => decide (p.triggerPrice < pos.entry)
      | .SHORT => decide (p.triggerPrice > pos.entry))
   else false)

/-- Classification of an active plan order as a take-profit. -/
def is_tp_order (pos : PosData) (p : PlanOrder) : Bool :=
  plan_is_active p &&
  (if p.planType = "loss_plan" then false
   else if p.planType = "profit_plan" then true
   else if p.otype = "CLOSE_LONG" ∨ p.otype = "CLOSE_SHORT" then
     (match pos.side with
      | .LONG => decide (p.triggerPrice > pos.entry)
      | .SHORT => decide (p.triggerPrice < pos.entry))
   else false)

/-- Adapter calls made by the reconciliation pass for one symbol. -/
inductive FixAction
  | cancel_all_plans
  | place_plan (planType : String) (trigger size : ℚ) (side : Direction)
deriving DecidableEq, Repr

/-- The default stop-loss price placed by the missing-order repair: a 2%
band from entry, clamped against the current market price, rounded to the
price step. -/
def default_sl_price (price_step entry current_price : ℚ) (side : Direction) :
    ℚ :=
  let sl_pct : ℚ := 2/100
  match side with
  | .LONG =>
      let sl0 := entry * (1 - sl_pct)
      let sl1 := if current_price > 0 ∧ sl0 ≥ current_price
        then current_price * (99/100) else sl0
      round_price_to_step sl1 price_step
  | .SHORT =>
      let sl0 := entry * (1 + sl_pct)
      let sl1 := if current_price > 0 ∧ sl0 ≤ current_price
        then current_price * (101/100) else sl0
      round_price_to_step sl1 price_step

/-- The default take-profit price placed by the missing-order repair: a 4%
band from entry, clamped against the current market price, rounded to the
price step. -/
def default_tp_price (price_step entry current_price : ℚ) (side : Direction) :
    ℚ :=
  let tp_pct : ℚ := 4/100
  match side with
  | .LONG =>
      let tp0 := entry * (1 + tp_pct)
      let tp1 := if current_price > 0 ∧ tp0 ≤ current_price
        then current_price * (101/100) else tp0
      round_price_to_step tp1 price_step
  | .SHORT =>
      let tp0 := entry * (1 - tp_pct)
      let tp1 := if current_price > 0 ∧ tp0 ≥ current_price
        then current_price * (99/100) else tp0
      round_price_to_step tp1 price_step

/-- The per-symbol body of `SentinelLiveTradingBot.check_and_fix_plans`:
classifies the open plan orders, then — on redundancy (more than one stop
or more than one target) — the source calls
`self.adapter.cancel_all_plan_orders(symbol)`, a method
`WeexExecutionAdapter` does not define, so an `AttributeError` is raised
before anything is canceled or placed and propagates out of the per-symbol
body into the single method-wide `except` of `check_and_fix_plans`:
the whole pass aborts (modelled as `none`). Otherwise the body restores a
missing stop and a missing target from the default percentage bands and
returns the symbol's plan-order set after the pass together with the
adapter calls issued. A freshly placed plan order appears on the exchange
with its explicit `planType` and a fresh (active) status. -/
def check_and_fix_symbol (price_step : ℚ) (pos : PosData)
    (current_price : ℚ) (plans : List PlanOrder) :
    Option (List PlanOrder × List FixAction) :=
  let sl_orders := plans.filter (is_sl_order pos)
  let tp_orders := plans.filter (is_tp_order pos)
  -- Redundancy: AttributeError on the missing cancel_all_plan_orders;
  -- nothing is canceled, nothing placed, the pass dies here
  if sl_orders.length > 1 ∨ tp_orders.length > 1 then none
  else
    -- Missing stop-loss
    let entry_sl := if pos.entry = 0 ∧ current_price > 0 then current_price
      else pos.entry
    let place_sl := sl_orders.isEmpty ∧ entry_sl > 0
    let sl_price := default_sl_price price_step entry_sl current_price pos.side
    let plans2 := if place_sl
      then plans ++ [⟨"loss_plan", "", sl_price, "new"⟩] else plans
    let acts1 : List FixAction := if place_sl
      then [.place_plan "loss_plan" sl_price pos.size pos.side]
      else []
    -- Missing take-profit
    let entry_tp := if pos.entry = 0 ∧ current_price > 0 then current_price
      else pos.entry
    let place_tp := tp_orders.isEmpty ∧ entry_tp > 0
    let tp_price := default_tp_price price_step entry_tp current_price pos.side
    let plans3 := if place_tp
      then plans2 ++ [⟨"profit_plan", "", tp_price, "new"⟩] else plans2
    let acts2 := if place_tp
      then acts1 ++ [.place_plan "profit_plan" tp_price pos.size pos.side]
      else acts1
    some (plans3, acts2)

/-- One symbol's slice of the state `check_and_fix_plans` walks over: the
symbol's price step (from its rules), its open position, the current market
price and its open plan orders. -/
structure SymbolPlanState where
  price_step : ℚ
  pos : PosData
  current_price : ℚ
  plans : List PlanOrder
deriving DecidableEq, Repr

/-- `SentinelLiveTradingBot.check_and_fix_plans`: the loop over the symbols
holding a position, in dict order. The whole loop body sits inside one
`try`/`except`, so the `AttributeError` escaping from a redundancy hit
(see `check_and_fix_symbol`) aborts the remainder of the pass: the current
symbol and every later one keep their plan orders untouched and no further
adapter call is made. Returns the per-symbol plan sets after the pass and
the adapter calls issued. -/
def check_and_fix_plans : List SymbolPlanState →
    List SymbolPlanState × List FixAction
  | [] => ([], [])
  | s :: rest =>
    match check_and_fix_symbol s.price_step s.pos s.current_price s.plans with
    | none => (s :: rest, [])
    | some r =>
        let next := check_and_fix_plans rest
        ({ s with plans := r.1 } :: next.1, r.2 ++ next.2)

/-! ## Hedge consolidation and position sync -/

/-- The `symbol_groups` dict built by `consolidate_hedged_positions`: for
each key of `self.positions` (in order of first occurrence), the list of
its values. Since `self.positions` is a dict, keys are unique and every
group is a singleton. -/
def group_by_symbol (positions : List (String × ℚ)) :
    List (String × List ℚ) :=
  let keys := positions.foldl
    (fun acc p => if p.1 ∈ acc then acc else acc ++ [p.1]) []
  keys.map (fun s =>
    (s, (positions.filter (fun p => decide (p.1 = s))).map Prod.snd))

/-- `consolidate_hedged_positions` (the method of `live_trading_bot.py`;
`hedge_consolidation.py` carries the identical logic): returns the symbols
for which both sides are closed (`close_all_positions` issued). -/
def consolidate_hedged_positions (positions : List (String × ℚ)) :
    List String :=
  (group_by_symbol positions).foldl (fun closed g =>
    if g.2.length < 2 then closed
    else
      let net_size := g.2.sum
      let total_abs := (g.2.map qabs).sum
      let has_long := g.2.any (fun s => decide (s > 0))
      let has_short := g.2.any (fun s => decide (s < 0))
      if has_long ∧ has_short ∧ total_abs > 0 then
        let net_exposure_pct := qabs net_size / total_abs * 100
        if net_exposure_pct < 5 then closed ++ [g.1] else closed
      else closed) []

/-- One exchange position row as consumed by `sync_state` /
`refresh_account_state`. -/
structure RawPosition where
  symbol : String
  holdAmount : ℚ
  side : Direction
deriving Repr

/-- The position loop of `refresh_account_state`: `self.positions` starts
at `0.0` for every configured symbol, then each row overwrites
`self.positions[sym]` with its signed amount (negative for SHORT). A dict
holds one float per symbol, so a second row for the same symbol replaces
the first. -/
def sync_positions (symbols : List String) (rows : List RawPosition) :
    List (String × ℚ) :=
  rows.foldl (fun ps row =>
    if row.symbol ∈ symbols then
      setK ps row.symbol (match row.side with
        | .LONG => row.holdAmount
        | .SHORT => -row.holdAmount)
    else ps) (symbols.map (fun s => (s, 0)))

/-! ## Spec-side predicates -/

/-- The spec's side-of-entry invariant for a protection plan: for LONG,
`stop_loss < entry < take_profit`; for SHORT, `take_profit < entry <
stop_loss`. -/
def correct_sides (entry : ℚ) (signal : Direction) (p : TPSLPlan) : Prop :=
  match signal with
  | .LONG => p.stop_loss < entry ∧ entry < p.take_profit
  | .SHORT => p.take_profit < entry ∧ entry < p.stop_loss

/-- `s'` is no less favorable to the position than stop price `s`:
for a LONG the stop may only rise, for a SHORT only fall. -/
def stop_not_worse (dir : Direction) (s s' : ℚ) : Prop :=
  match dir with
  | .LONG => s ≤ s'
  | .SHORT => s' ≤ s

/-- The stop price `manage_active_trades` would install at tier `k`
(entry shifted by the locked-profit percentage, rounded to the price
step). -/
def tier_lock_price (rules : SymbolRules) (dir : Direction) (entry : ℚ)
    (k : ℕ) : ℚ :=
  round_price_to_step
    (match dir with
      | .LONG => entry * (1 + lockedProfitPct k / 100)
      | .SHORT => entry * (1 - lockedProfitPct k / 100)) rules.price_step

/-- The profit-lock tier ladder of `manage_active_trades` as a function of
direction, entry and current price (ROI ≥ 10% ↦ 3, ≥ 5% ↦ 2, ≥ 2% ↦ 1). -/
def manage_lock_tier (dir : Direction) (entry price : ℚ) : ℕ :=
  let roi : ℚ := match dir with
    | .LONG => (price - entry) / entry * 100
    | .SHORT => (entry - price) / entry * 100
  if roi ≥ 10 then 3 else if roi ≥ 5 then 2 else if roi ≥ 2 then 1 else 0

/-- Invariant tying a trade's stop to its tier: the recorded stop is no
more favorable than the next reachable lock price (tier `max(tier, 1)`),
so a tier upgrade can only tighten it. Holds for freshly registered trades
(stop on the loss side of entry) and is preserved by `manage_trade_step`. -/
def manage_stop_inv (rules : SymbolRules) (dir : Direction) (t : Trade) :
    Prop :=
  ∀ s, t.stop_loss = some s →
    stop_not_worse dir s
      (tier_lock_price rules dir (t.entry_price.getD 0)
        (Nat.max (t.profit_lock_tier.getD 0) 1))

/-! ## Concrete scenario inputs -/

/-- A trade freshly registered by `execute_trade`: LONG 2 contracts at
entry 100, ATR 1.2, stop target 97.4, TP 104.6, entered at time 0. Its
stop order has not been placed (`sl_placed = false`). -/
def pendingTrade : Trade :=
  trade_payload "cmt_btcusdt" (some "1") Direction.LONG 2 100 (974/10)
    (1046/10) (12/10) 0

/-- The same shape of trade used in the portfolio-risk scenario: note
`trade_payload` records no `risk_pct`. -/
def riskTrade : Trade :=
  trade_payload "cmt_btcusdt" (some "1") Direction.LONG 2 100 (974/10)
    (1046/10) (13/10) 1000

/-- Bot state after one trade of intended risk 2% was executed on
`cmt_btcusdt` (position open, metadata registered). -/
def riskState : BotState :=
  { positions := [("cmt_btcusdt", 2), ("cmt_ethusdt", 0)]
    active_trades := [("cmt_btcusdt", [riskTrade]), ("cmt_ethusdt", [])] }

/-! ## Helper lemmas -/

theorem le_qmax_left (a b : ℚ) : a ≤ qmax a b := by
  unfold qmax; split <;> simp_all

theorem le_qmax_right (a b : ℚ) : b ≤ qmax a b := by
  unfold qmax; split
  · exact le_refl b
  · exact le_of_not_le (by assumption)

theorem qmax_le (a b c : ℚ) (ha : a ≤ c) (hb : b ≤ c) : qmax a b ≤ c := by
  unfold qmax; split <;> assumption

theorem qmax_pos (a b : ℚ) (hb : 0 < b) : 0 < qmax a b :=
  lt_of_lt_of_le hb (le_qmax_right a b)

theorem qmax_mul_pos (a b p : ℚ) (hp : 0 < p) :
    qmax a b * p = qmax (a * p) (b * p) := by
  unfold qmax
  rcases le_or_lt a b with h | h
  · rw [if_pos h, if_pos (by exact mul_le_mul_of_nonneg_right h hp.le)]
  · rw [if_neg (not_le.mpr h),
      if_neg (not_le.mpr (by exact mul_lt_mul_of_pos_right h hp))]

theorem rhe_bounds (x : ℚ) :
    x - 1/2 ≤ (rhe x : ℚ) ∧ (rhe x : ℚ) ≤ x + 1/2 := by
  unfold rhe
  dsimp only
  have hf : (⌊x⌋ : ℚ) ≤ x := Int.floor_le x
  have hf2 : x < (⌊x⌋ : ℚ) + 1 := Int.lt_floor_add_one x
  split_ifs <;> constructor <;> push_cast <;> linarith

theorem rhe_intCast (m : ℤ) : rhe (m : ℚ) = m := by
  unfold rhe
  rw [Int.floor_intCast]
  simp

theorem rhe_mono (x y : ℚ) (h : x ≤ y) : rhe x ≤ rhe y := by
  have hfxy : ⌊x⌋ ≤ ⌊y⌋ := Int.floor_le_floor h
  have hbx : ⌊x⌋ ≤ rhe x ∧ rhe x ≤ ⌊x⌋ + 1 := by
    unfold rhe; dsimp only; split_ifs <;> omega
  have hby : ⌊y⌋ ≤ rhe y ∧ rhe y ≤ ⌊y⌋ + 1 := by
    unfold rhe; dsimp only; split_ifs <;> omega
  rcases lt_or_eq_of_le hfxy with hlt | heq
  · omega
  · -- same floor: compare the fractional parts branch by branch
    have hry : x - (⌊x⌋ : ℚ) ≤ y - (⌊y⌋ : ℚ) := by
      rw [heq]; linarith
    unfold rhe
    dsimp only
    rw [heq] at hry ⊢
    split_ifs <;> first | omega | linarith

theorem roundDec_bounds (x : ℚ) (d : ℕ) :
    x - 1/(2 * 10 ^ d) ≤ roundDec x d ∧ roundDec x d ≤ x + 1/(2 * 10 ^ d) := by
  have hp : (0:ℚ) < 10 ^ d := by positivity
  have hb := rhe_bounds (x * 10 ^ d)
  have hcancel : (1/(2 * 10 ^ d) : ℚ) * 10 ^ d = 1/2 := by
    field_simp
    ring
  unfold roundDec
  constructor
  · rw [le_div_iff hp, sub_mul, hcancel]
    exact hb.1
  · rw [div_le_iff hp, add_mul, hcancel]
    exact hb.2

theorem roundDec_exact (m : ℤ) (d : ℕ) :
    roundDec ((m : ℚ) / 10 ^ d) d = (m : ℚ) / 10 ^ d := by
  have hp : (10:ℚ) ^ d ≠ 0 := by positivity
  unfold roundDec
  rw [div_mul_cancel₀ _ hp, rhe_intCast]

theorem roundDec_intCast (n : ℤ) : roundDec (n : ℚ) 0 = n := by
  simpa using roundDec_exact n 0

theorem roundDec_mono (d : ℕ) (x y : ℚ) (h : x ≤ y) :
    roundDec x d ≤ roundDec y d := by
  have hp : (0:ℚ) < 10 ^ d := by positivity
  have h2 := rhe_mono (x * 10 ^ d) (y * 10 ^ d)
    (mul_le_mul_of_nonneg_right h hp.le)
  unfold roundDec
  exact (div_le_div_right hp).mpr (by exact_mod_cast h2)

theorem decimalsFor_pow (j : ℕ) : decimalsFor (1 / 10 ^ j) = j := by
  unfold decimalsFor
  rcases Nat.eq_zero_or_pos j with hj | hj
  · subst hj; norm_num
  · have h1 : (1 : ℚ) / 10 ^ j < 1 := by
      rw [div_lt_one (by positivity)]
      exact one_lt_pow (by norm_num) (by omega)
    rw [if_pos h1]
    have h2 : (1 : ℚ) / (1 / 10 ^ j) = 10 ^ j := by
      field_simp
    rw [h2]
    have h3 : ⌊(10 : ℚ) ^ j⌋ = (10 : ℤ) ^ j := by
      rw [show ((10:ℚ) ^ j) = (((10:ℤ) ^ j : ℤ) : ℚ) by push_cast; ring,
        Int.floor_intCast]
    rw [h3]
    have h4 : Int.toNat ((10:ℤ) ^ j) = 10 ^ j := by
      rw [show ((10:ℤ) ^ j) = ((10 ^ j : ℕ) : ℤ) by push_cast; ring,
        Int.toNat_natCast]
    rw [h4]
    exact Nat.log_pow (by norm_num : (1:ℕ) < 10) j

theorem get_regime_multipliers_range (c : TPSLCalculator) :
    c.get_regime_multipliers "RANGE" =
      (2 * c.base_sl_multiplier, 7/2 * c.base_tp_multiplier) := rfl

theorem get_regime_multipliers_other (c : TPSLCalculator) :
    c.get_regime_multipliers "OTHER" =
      (1 * c.base_sl_multiplier, 2 * c.base_tp_multiplier) := rfl

theorem pnl_update_halted (g : PnLGuard) (e : ℚ)
    (h : g.trading_halted = true) : (g.update e).trading_halted = true := by
  unfold PnLGuard.update
  cases hpk : g.peak_equity with
  | none => simpa using h
  | some pk =>
      by_cases hc : (qmax pk e - e) / qmax pk e ≥ g.max_drawdown_pct <;>
        simp [hc, h]

theorem pnl_foldl_halted (es : List ℚ) :
    ∀ g : PnLGuard, g.trading_halted = true →
      (es.foldl PnLGuard.update g).trading_halted = true := by
  induction es with
  | nil => intro g h; simpa using h
  | cons e es ih =>
      intro g h
      simpa using ih (g.update e) (pnl_update_halted g e h)

/-! ## C10: PnLGuard halt semantics -/

/-- C10: PnLGuard's halt is sticky and its trigger is inclusive: the first
`update` from a fresh guard only records the peak and never halts; a later
`update` halts exactly when drawdown from the running peak is ≥
`max_drawdown_pct` (equality included, and a previously set halt is kept);
once halted, no sequence of further `update` calls makes `can_trade` true
again; only `reset` or `force_unhalt` clear the halt. -/
theorem pnl_guard_halt_sticky_inclusive :
    (∀ dd e : ℚ, (PnLGuard.init dd).update e =
      { max_drawdown_pct := dd, peak_equity := some e,
        trading_halted := false }) ∧
    (∀ (dd p e : ℚ) (h : Bool),
      (PnLGuard.update ⟨dd, some p, h⟩ e).trading_halted =
        (h || decide ((qmax p e - e) / qmax p e ≥ dd))) ∧
    (∀ (dd : ℚ) (pk : Option ℚ) (es : List ℚ),
      (es.foldl PnLGuard.update ⟨dd, pk, true⟩).can_trade = false) ∧
    (∀ g : PnLGuard, g.reset.can_trade = true ∧
      g.force_unhalt.can_trade = true) := by
  refine ⟨fun dd e => rfl, fun dd p e h => ?_, fun dd pk es => ?_, fun g => ⟨rfl, rfl⟩⟩
  · by_cases hc : (qmax p e - e) / qmax p e ≥ dd <;>
      simp [PnLGuard.update, hc]
  · have := pnl_foldl_halted es ⟨dd, pk, true⟩ rfl
    simp [PnLGuard.can_trade, this]

/-! ## C9: Scenario A -/

/-- C9 counterexample: the same entry/direction/volatility/regime with
confidence 1 (a legal input satisfying everything the claim fixes) yields
take-profit 105.04 and risk-reward 2.1 — not the 104.2 / 1.75 the claim
asserts — because the target distance is scaled by the confidence factor
on top of the regime multiplier. -/
theorem scenario_a_confidence_one :
    botCalculator.calculate_tp_sl 100 Direction.LONG 1 "RANGE" (1/2) =
      some { take_profit := 2626/25, stop_loss := 488/5,
             risk_reward := 21/10 } ∧
    (2626/25 : ℚ) ≠ 1042/10 ∧ (21/10 : ℚ) ≠ 7/4 ∧ (488/5 : ℚ) = 976/10 := by
  refine ⟨?_, by norm_num, by norm_num, by norm_num⟩
  norm_num [TPSLCalculator.calculate_tp_sl, get_regime_multipliers_range,
    botCalculator, qmax, roundDec, rhe]

/-- C9 amended: at neutral confidence 0.5 (confidence factor exactly 1)
Scenario A holds: the volatility estimate 0.5 is clamped up to the 1.2%
floor (1.2), the RANGE multipliers are stop×2.0 and target×3.5, and the
result is stop 97.6, target 104.2, risk-reward 1.75. -/
theorem scenario_a_neutral_confidence :
    qmax (1/2) (100 * (12/1000)) = 12/10 ∧
    botCalculator.get_regime_multipliers "RANGE" = (2, 7/2) ∧
    botCalculator.calculate_tp_sl 100 Direction.LONG (1/2) "RANGE" (1/2) =
      some { take_profit := 1042/10, stop_loss := 976/10,
             risk_reward := 7/4 } := by
  refine ⟨by norm_num [qmax], ?_, ?_⟩
  · rw [get_regime_multipliers_range]; norm_num [botCalculator]
  · norm_num [TPSLCalculator.calculate_tp_sl, get_regime_multipliers_range,
      botCalculator, qmax, roundDec, rhe]

/-! ## C1: the noise-absorption stop placement -/

/-- C1: `execute_trade` indeed withholds the stop (`sl_placed = false`,
no stop order among its actions — see `execute_trade`), but
`manage_active_trades` contains no 3-second / 0.4×ATR placement logic at
all: for the freshly entered trade `pendingTrade` (entry 100, ATR 1.2),
with the price moved by exactly 0.4×ATR to 100.48 (and any amount of time
elapsed — the function never reads `entry_time` or `sl_placed`), the
management step places no order and leaves the trade unchanged, still
unprotected. -/
theorem manage_never_places_pending_stop :
    manage_active_trades defaultRules (10048/100) [] [pendingTrade] =
      ([pendingTrade], []) ∧
    pendingTrade.sl_placed = false ∧
    (10048/100 : ℚ) - 100 = (4/10) * (12/10) := by
  refine ⟨?_, rfl, by norm_num⟩
  norm_num [manage_active_trades, manage_trade_step, pendingTrade,
    trade_payload]

/-! ## C6: hedge consolidation -/

theorem filter_key_len_le_one (ps : List (String × ℚ)) (s : String)
    (h : (ps.map Prod.fst).Nodup) :
    (ps.filter (fun p => decide (p.1 = s))).length ≤ 1 := by
  induction ps with
  | nil => simp
  | cons a ps ih =>
      simp only [List.map_cons, List.nodup_cons] at h
      by_cases ha : a.1 = s
      · have h0 : (ps.filter (fun p => decide (p.1 = s))) = [] := by
          rw [List.filter_eq_nil_iff]
          intro b hb
          simp only [decide_eq_true_eq]
          intro hbs
          exact h.1 (ha ▸ hbs ▸ List.mem_map_of_mem Prod.fst hb)
        simp [List.filter_cons, ha, h0]
      · simpa [List.filter_cons, ha] using ih h.2

/-- `self.positions` is a dict (unique keys), so every group built by
`consolidate_hedged_positions` is a singleton and the hedge branch
(`len(sizes) >= 2`) is unreachable: the pass closes nothing, whatever the
positions are. -/
theorem consolidate_closes_nothing (ps : List (String × ℚ))
    (h : (ps.map Prod.fst).Nodup) :
    consolidate_hedged_positions ps = [] := by
  have hg : ∀ g ∈ group_by_symbol ps, g.2.length < 2 := by
    intro g hgmem
    unfold group_by_symbol at hgmem
    simp only [List.mem_map] at hgmem
    obtain ⟨s, _, rfl⟩ := hgmem
    simpa using Nat.lt_of_le_of_lt (filter_key_len_le_one ps s h) (by norm_num)
  unfold consolidate_hedged_positions
  generalize group_by_symbol ps = gs at hg
  suffices H : ∀ (gs : List (String × List ℚ)) (acc : List String),
      (∀ g ∈ gs, g.2.length < 2) →
      gs.foldl (fun closed g =>
        if g.2.length < 2 then closed
        else
          let net_size := g.2.sum
          let total_abs := (g.2.map qabs).sum
          let has_long := g.2.any (fun s => decide (s > 0))
          let has_short := g.2.any (fun s => decide (s < 0))
          if has_long ∧ has_short ∧ total_abs > 0 then
            let net_exposure_pct := qabs net_size / total_abs * 100
            if net_exposure_pct < 5 then closed ++ [g.1] else closed
          else closed) acc = acc by
    exact H gs [] hg
  intro gs
  induction gs with
  | nil => intro acc _; rfl
  | cons g gs ih =>
      intro acc hall
      rw [List.foldl_cons, if_pos (hall g (by simp))]
      exact ih acc (fun x hx => hall x (by simp [hx]))

/-- C6: Scenario D cannot fire. The exchange reports +5 LONG and −5.1
SHORT on one symbol; the position sync stores one net float per symbol
(the second row overwrites the first, leaving −5.1), so
`consolidate_hedged_positions` sees a single-element group, skips it
(`len(sizes) < 2`), and closes nothing — although net exposure is ≈1% of
gross. -/
theorem hedge_consolidation_never_fires :
    sync_positions ["cmt_solusdt"]
      [⟨"cmt_solusdt", 5, Direction.LONG⟩,
       ⟨"cmt_solusdt", 51/10, Direction.SHORT⟩] =
      [("cmt_solusdt", -(51/10))] ∧
    consolidate_hedged_positions [("cmt_solusdt", -(51/10))] = [] ∧
    qabs (5 + -(51/10)) / (qabs 5 + qabs (-(51/10))) * 100 < 5 := by
  refine ⟨by norm_num [sync_positions, setK], ?_, by norm_num [qabs]⟩
  norm_num [consolidate_hedged_positions, group_by_symbol]

/-! ## C4: position sizing vs the notional ceiling -/

theorem decimalsFor_thousandth : decimalsFor (1/1000) = 3 := by
  have h : (1/1000 : ℚ) = 1 / 10 ^ 3 := by norm_num
  rw [h]
  exact decimalsFor_pow 3

theorem round_size_eval_half_mil : round_size_to_rules defaultRules (1/2000) = 1/1000 := by
  norm_num [round_size_to_rules, defaultRules, zmax, decimalsFor_thousandth,
    roundDec, rhe]

/-- `round_size_to_rules` never returns more than the raw size, the
minimum quantity or one quantity step — whichever is largest — provided
the quantity step is an integer power of ten (so that the final decimal
rounding is exact). Every step `get_symbol_rules` produces has this form:
`1/10^qty_scale` from the scale field, the fallbacks `0.001`, `0.01` and
`1.0`, and the min-quantity override (`10` for XRP). -/
theorem round_size_le (rules : SymbolRules) (x : ℚ)
    (hk : ∃ k : ℤ, rules.qty_step = (10:ℚ) ^ k) :
    round_size_to_rules rules x ≤ qmax x (qmax rules.min_qty rules.qty_step) := by
  obtain ⟨k, hkk⟩ := hk
  have hstep : 0 < rules.qty_step := by
    rw [hkk]; exact zpow_pos (by norm_num) k
  have hexact : ∀ n : ℤ, roundDec ((n : ℚ) * rules.qty_step)
      (decimalsFor rules.qty_step) = (n : ℚ) * rules.qty_step := by
    intro n
    rcases lt_or_le k 0 with hneg | hnn
    · have hkj : rules.qty_step = 1 / 10 ^ (-k).toNat := by
        rw [hkk]
        have h1 : (10:ℚ) ^ k = (10:ℚ) ^ (-(((-k).toNat : ℕ) : ℤ)) := by
          congr 1
          omega
        rw [h1, zpow_neg, zpow_natCast, one_div]
      rw [hkj, decimalsFor_pow,
        show (n : ℚ) * (1 / 10 ^ (-k).toNat) =
          (n : ℚ) / 10 ^ (-k).toNat by ring]
      exact roundDec_exact _ _
    · have hkj : rules.qty_step = (10:ℚ) ^ k.toNat := by
        rw [hkk]
        have h1 : (10:ℚ) ^ k = (10:ℚ) ^ ((k.toNat : ℕ) : ℤ) := by
          congr 1
          omega
        rw [h1, zpow_natCast]
      have hge : (1:ℚ) ≤ 10 ^ k.toNat := one_le_pow₀ (by norm_num)
      have hdec : decimalsFor rules.qty_step = 0 := by
        rw [hkj]; unfold decimalsFor; rw [if_neg (not_lt.mpr hge)]
      rw [hdec, hkj,
        show (n : ℚ) * 10 ^ k.toNat = ((n * 10 ^ k.toNat : ℤ) : ℚ) by
          push_cast; ring,
        roundDec_intCast]
  have hR : rules.qty_step ≤ qmax x (qmax rules.min_qty rules.qty_step) :=
    le_trans (le_qmax_right rules.min_qty _) (le_qmax_right x _)
  unfold round_size_to_rules
  dsimp only
  by_cases hx : x ≤ 0
  · rw [if_pos hx]
    exact le_trans hstep.le hR
  · rw [if_neg hx, if_neg (not_le.mpr hstep)]
    set raw := if x < rules.min_qty then rules.min_qty else x with hraw
    have hrawle : raw ≤ qmax x rules.min_qty := by
      rw [hraw]; split_ifs
      · exact le_qmax_right _ _
      · exact le_qmax_left _ _
    set m : ℤ := ⌊raw / rules.qty_step⌋ with hm
    have hfinal : (zmax 1 m : ℚ) * rules.qty_step ≤ qmax raw rules.qty_step := by
      unfold zmax
      split_ifs with h1
      · have hfle : (m:ℚ) ≤ raw / rules.qty_step := Int.floor_le _
        calc (m:ℚ) * rules.qty_step
            ≤ (raw / rules.qty_step) * rules.qty_step :=
              mul_le_mul_of_nonneg_right hfle hstep.le
          _ = raw := div_mul_cancel₀ _ hstep.ne'
          _ ≤ qmax raw _ := le_qmax_left _ _
      · simpa using le_qmax_right raw rules.qty_step
    rw [hexact (zmax 1 m)]
    refine hfinal.trans (qmax_le _ _ _ ?_ hR)
    exact hrawle.trans (qmax_le _ _ _ (le_qmax_left _ _)
      (le_trans (le_qmax_left rules.min_qty rules.qty_step) (le_qmax_right x _)))

/-- C4 counterexample: with the default rules (`min_qty = qty_step =
0.001`) and price 400000 (stop 396000, equity 1000, risk 2%), the final
quantity is the exchange minimum 0.001, whose notional 400 exceeds the
200-dollar ceiling: the minimum-quantity floor inside
`round_size_to_rules` overrides the notional cap, and the post-rounding
re-cap re-rounds right back up to the minimum. -/
theorem position_size_exceeds_ceiling :
    calculate_position_size 1000 200 defaultRules 400000 396000 (2/100) = 1/1000 ∧
    ¬ ((1/1000 : ℚ) * 400000 ≤ 200) := by
  constructor
  · have h1 : capped_raw_size 1000 200 400000 396000 (1/50) = 1/2000 := by
      norm_num [capped_raw_size, qabs]
    norm_num [calculate_position_size, qabs, h1, round_size_eval_half_mil]
  · norm_num

/-- C4 amended: the notional cap holds exactly for the raw risk-based
quantity before step-rounding; after rounding, `quantity × price` is
bounded by `max(ceiling, min_qty × price, qty_step × price)` — the cap can
be exceeded only when the exchange's smallest legal order itself exceeds
the ceiling, and then by no more than that minimum. The quantity step is
assumed to be an integer power of ten, the form of every step
`get_symbol_rules` produces (`1/10^qty_scale`, the fallbacks `0.001`,
`0.01`, `1.0`, and the min-quantity override `10`). -/
theorem position_size_ceiling_amended (equity cap price stop risk : ℚ)
    (rules : SymbolRules) (hp : 0 < price) (hcap : 0 ≤ cap)
    (hk : ∃ k : ℤ, rules.qty_step = (10:ℚ) ^ k) :
    capped_raw_size equity cap price stop risk * price ≤ cap ∧
    calculate_position_size equity cap rules price stop risk * price ≤
      qmax cap (qmax (rules.min_qty * price) (rules.qty_step * price)) := by
  have hpre : capped_raw_size equity cap price stop risk * price ≤ cap := by
    unfold capped_raw_size
    dsimp only
    split_ifs with h
    · rw [div_mul_cancel₀ _ hp.ne']
    · rw [mul_comm]
      exact le_of_not_lt h
  refine ⟨hpre, ?_⟩
  have hRcap : cap ≤ qmax cap (qmax (rules.min_qty * price) (rules.qty_step * price)) :=
    le_qmax_left _ _
  unfold calculate_position_size
  dsimp only
  split_ifs with h1 h2 h3
  · simpa using hcap.trans hRcap
  · simpa using hcap.trans hRcap
  · -- re-capped and re-rounded
    have hb := round_size_le rules (cap / price) hk
    have hb2 := mul_le_mul_of_nonneg_right hb hp.le
    rw [qmax_mul_pos _ _ _ hp, qmax_mul_pos _ _ _ hp,
      div_mul_cancel₀ _ hp.ne'] at hb2
    exact hb2.trans (qmax_le _ _ _ hRcap (le_qmax_right _ _))
  · -- the first rounding already satisfied the cap
    exact (le_of_not_lt h3).trans hRcap

/-- C4 amended, witness: a concrete instantiation (price 100, stop 98,
equity 1000, risk 2%, default rules). -/
theorem position_size_ceiling_amended_witness :
    (0:ℚ) < 100 ∧ (0:ℚ) ≤ 200 ∧
    (∃ k : ℤ, defaultRules.qty_step = (10:ℚ) ^ k) ∧
    (capped_raw_size 1000 200 100 98 (2/100) * 100 ≤ 200 ∧
      calculate_position_size 1000 200 defaultRules 100 98 (2/100) * 100 ≤
        qmax 200 (qmax (defaultRules.min_qty * 100) (defaultRules.qty_step * 100))) :=
  ⟨by norm_num, by norm_num,
    ⟨-3, by norm_num [defaultRules]⟩,
    position_size_ceiling_amended 1000 200 100 98 (2/100) defaultRules
      (by norm_num) (by norm_num) ⟨-3, by norm_num [defaultRules]⟩⟩

/-! ## C7: protection-plan risk-reward and sides -/

/-- Closed form of `calculate_tp_sl` on valid inputs. -/
theorem calculate_tp_sl_eq (c : TPSLCalculator) (entry conf atr : ℚ)
    (regime : String) (signal : Direction)
    (hc : 0 ≤ conf ∧ conf ≤ 1) (he : 0 < entry) (ha : 0 < atr) :
    c.calculate_tp_sl entry signal conf regime atr =
      some (let eff := qmax atr (entry * (12/1000))
            let sl_d := eff * (c.get_regime_multipliers regime).1
            let tp_d1 := eff * (c.get_regime_multipliers regime).2 *
              (8/10 + conf * (4/10))
            let adjust := tp_d1 / sl_d < c.min_rr_ratio
            let tp_d := if adjust then sl_d * c.min_rr_ratio else tp_d1
            { take_profit := roundDec (match signal with
                | .LONG => entry + tp_d
                | .SHORT => entry - tp_d) 4
              stop_loss := roundDec (match signal with
                | .LONG => entry - sl_d
                | .SHORT => entry + sl_d) 4
              risk_reward := if adjust then c.min_rr_ratio
                else tp_d1 / sl_d }) := by
  unfold TPSLCalculator.calculate_tp_sl
  rw [if_neg (not_not.mpr hc), if_neg (by push_neg; exact ⟨he, ha⟩)]
  cases signal <;> dsimp only <;> split_ifs <;> rfl

theorem bot_multiplier_bounds (regime : String) :
    1 ≤ (botCalculator.get_regime_multipliers regime).1 ∧
    2 ≤ (botCalculator.get_regime_multipliers regime).2 := by
  unfold TPSLCalculator.get_regime_multipliers
  dsimp only
  split_ifs <;> norm_num [botCalculator]

/-- C7 counterexample: at entry price 0.0001 with ATR 0.00002 (legal
inputs: positive entry and ATR, confidence 0.5 in range), the final
rounding to 4 decimal places collapses both the stop and the target onto
the entry price, so neither lies strictly on the correct side of entry. -/
theorem tp_sl_sides_collapse_at_tiny_price :
    botCalculator.calculate_tp_sl (1/10000) Direction.LONG (1/2) "OTHER"
        (2/100000) =
      some { take_profit := 1/10000, stop_loss := 1/10000, risk_reward := 2 } ∧
    ¬ correct_sides (1/10000) Direction.LONG
      { take_profit := 1/10000, stop_loss := 1/10000, risk_reward := 2 } ∧
    (0:ℚ) < 1/10000 ∧ (0:ℚ) < 2/100000 := by
  refine ⟨?_, ?_, by norm_num, by norm_num⟩
  · norm_num [TPSLCalculator.calculate_tp_sl, get_regime_multipliers_other,
      botCalculator, qmax, roundDec, rhe]
  · unfold correct_sides
    norm_num

/-- C7 amended: for every valid input (`entry > 0`, `atr > 0`, confidence
in `[0,1]`, either signal) the returned plan always has
`risk_reward ≥ min_rr_ratio` (achieved by widening the target distance
while the stop price is the rounding of `entry ∓ sl_distance`, independent
of the adjustment); and whenever the entry price is additionally at least
0.01 — so that the protective distances dominate the 10⁻⁴ rounding
quantum — the stop and target lie strictly on the correct sides of
entry. -/
theorem tp_sl_rr_and_sides (entry conf atr : ℚ) (regime : String)
    (signal : Direction) (hc0 : 0 ≤ conf) (hc1 : conf ≤ 1)
    (he0 : 0 < entry) (ha : 0 < atr) :
    ∃ p, botCalculator.calculate_tp_sl entry signal conf regime atr = some p ∧
      botCalculator.min_rr_ratio ≤ p.risk_reward ∧
      (1/100 ≤ entry → correct_sides entry signal p) ∧
      p.stop_loss = roundDec (match signal with
        | .LONG => entry - qmax atr (entry * (12/1000)) *
            (botCalculator.get_regime_multipliers regime).1
        | .SHORT => entry + qmax atr (entry * (12/1000)) *
            (botCalculator.get_regime_multipliers regime).1) 4 := by
  have hkey := calculate_tp_sl_eq botCalculator entry conf atr regime signal
    ⟨hc0, hc1⟩ he0 ha
  set eff := qmax atr (entry * (12/1000)) with heff
  set sl_d := eff * (botCalculator.get_regime_multipliers regime).1 with hsld
  set tp_d1 := eff * (botCalculator.get_regime_multipliers regime).2 *
    (8/10 + conf * (4/10)) with htpd1
  have hmul := bot_multiplier_bounds regime
  have heffge : entry * (12/1000) ≤ eff := le_qmax_right _ _
  have heffpos : 0 < eff := lt_of_lt_of_le (by positivity) heffge
  have hslge : entry * (12/1000) ≤ sl_d := by
    rw [hsld]
    calc entry * (12/1000) = entry * (12/1000) * 1 := by ring
      _ ≤ eff * (botCalculator.get_regime_multipliers regime).1 :=
        mul_le_mul heffge hmul.1 (by norm_num) heffpos.le
  have hslpos : 0 < sl_d := by
    rw [hsld]
    exact mul_pos heffpos (lt_of_lt_of_le one_pos hmul.1)
  have hsl_big : 1/100 ≤ entry → 1/20000 < sl_d := fun he =>
    lt_of_lt_of_le (by nlinarith [he]) hslge
  have hmrr : botCalculator.min_rr_ratio = 6/5 := by norm_num [botCalculator]
  have hslmul : sl_d ≤ sl_d * botCalculator.min_rr_ratio := by
    rw [hmrr]; linarith
  have hrr : botCalculator.min_rr_ratio ≤
      (if tp_d1 / sl_d < botCalculator.min_rr_ratio then botCalculator.min_rr_ratio
        else tp_d1 / sl_d) := by
    split_ifs with h
    · exact le_refl _
    · exact le_of_not_lt h
  set tp_d := (if tp_d1 / sl_d < botCalculator.min_rr_ratio
    then sl_d * botCalculator.min_rr_ratio else tp_d1) with htpd
  have htp_big : 1/100 ≤ entry → 1/20000 < tp_d := by
    intro he
    have hslb := hsl_big he
    rw [htpd]
    split_ifs with h
    · linarith
    · have h2 : botCalculator.min_rr_ratio ≤ tp_d1 / sl_d := le_of_not_lt h
      have h3 : sl_d * botCalculator.min_rr_ratio ≤ tp_d1 := by
        rw [le_div_iff₀ hslpos] at h2
        linarith [h2]
      linarith
  cases signal with
  | LONG =>
      refine ⟨_, hkey, ?_, ?_, rfl⟩
      · simpa using hrr
      · intro he
        have hslb := hsl_big he
        have htpb := htp_big he
        constructor
        · have hb := (roundDec_bounds (entry - sl_d) 4).2
          have : (1 : ℚ)/(2 * 10 ^ 4) = 1/20000 := by norm_num
          rw [this] at hb
          calc roundDec (entry - sl_d) 4 ≤ entry - sl_d + 1/20000 := hb
            _ < entry := by linarith
        · have hb := (roundDec_bounds (entry + tp_d) 4).1
          have : (1 : ℚ)/(2 * 10 ^ 4) = 1/20000 := by norm_num
          rw [this] at hb
          calc entry < entry + tp_d - 1/20000 := by linarith
            _ ≤ roundDec (entry + tp_d) 4 := hb
  | SHORT =>
      refine ⟨_, hkey, ?_, ?_, rfl⟩
      · simpa using hrr
      · intro he
        have hslb := hsl_big he
        have htpb := htp_big he
        constructor
        · have hb := (roundDec_bounds (entry - tp_d) 4).2
          have : (1 : ℚ)/(2 * 10 ^ 4) = 1/20000 := by norm_num
          rw [this] at hb
          calc roundDec (entry - tp_d) 4 ≤ entry - tp_d + 1/20000 := hb
            _ < entry := by linarith
        · have hb := (roundDec_bounds (entry + sl_d) 4).1
          have : (1 : ℚ)/(2 * 10 ^ 4) = 1/20000 := by norm_num
          rw [this] at hb
          calc entry < entry + sl_d - 1/20000 := by linarith
            _ ≤ roundDec (entry + sl_d) 4 := hb

/-- C7 amended, witness: entry 100, LONG, confidence 0.5, RANGE, ATR 0.5. -/
theorem tp_sl_rr_and_sides_witness :
    (0:ℚ) ≤ 1/2 ∧ (1/2:ℚ) ≤ 1 ∧ (0:ℚ) < 100 ∧ (0:ℚ) < 1/2 ∧
    (∃ p, botCalculator.calculate_tp_sl 100 Direction.LONG (1/2) "RANGE" (1/2)
        = some p ∧
      botCalculator.min_rr_ratio ≤ p.risk_reward ∧
      ((1/100:ℚ) ≤ 100 → correct_sides 100 Direction.LONG p) ∧
      p.stop_loss = roundDec (100 - qmax (1/2) (100 * (12/1000)) *
        (botCalculator.get_regime_multipliers "RANGE").1) 4) :=
  ⟨by norm_num, by norm_num, by norm_num, by norm_num,
    tp_sl_rr_and_sides 100 (1/2) (1/2) "RANGE" Direction.LONG
      (by norm_num) (by norm_num) (by norm_num) (by norm_num)⟩

/-! ## C5: the portfolio risk cap -/

theorem ne_sym1 : ("cmt_btcusdt" = "cmt_ethusdt") = False := eq_false (by decide)

theorem ne_sym2 : ("cmt_ethusdt" = "cmt_btcusdt") = False := eq_false (by decide)

/-- C5: the cap is not enforced, because `execute_trade` registers trades
without a `risk_pct` key. With the 3% cap and one open trade that was
admitted at 2% intended risk (`riskState`), a second 2% candidate on
another symbol is admitted — `current_portfolio_risk` reads
`t.get('risk_pct', 0.0) = 0` off the registered payload — although
2% + 2% exceeds the cap. -/
theorem risk_cap_not_enforced :
    riskTrade.risk_pct = none ∧
    current_portfolio_risk riskState.active_trades = 0 ∧
    can_open_trade 1100 riskState "cmt_ethusdt" Direction.LONG "TREND" (2/100)
      3000 (66/100) = true ∧
    ¬ ((2/100 : ℚ) + 2/100 ≤ portfolio_risk_cap) := by
  refine ⟨rfl, ?_, ?_, by norm_num [portfolio_risk_cap]⟩
  · norm_num [current_portfolio_risk, riskState, riskTrade, trade_payload]
  · norm_num [can_open_trade, cleanup_inactive_trades, current_portfolio_risk,
      lookupD, riskState, riskTrade, trade_payload, qabs, portfolio_risk_cap,
      ne_sym1, ne_sym2, List.find?]

/-! ## C2: failed take-profit leg closes the position -/

theorem tp_failure_closes_core (cfg : TPSLCalculator) (rules : SymbolRules)
    (equity cap : ℚ) (env : ExecEnv) (now : ℚ) (symbol : String)
    (direction : Direction) (conf price : ℚ) (regime : String) (risk : ℚ)
    (active0 : List Trade) (pos0 : ℚ) (tpsl : TPSLPlan)
    (hatr : 0 < env.atr)
    (htpsl : cfg.calculate_dynamic_tpsl price direction env.atr regime conf =
      some tpsl)
    (hsize : 0 < calculate_position_size equity cap rules price tpsl.stop_loss
      risk)
    (hguard : env.guard_allows = true)
    (hacc : env.order_accepted = true)
    (htp : env.tp_success = false) :
    (execute_trade cfg rules equity cap env now symbol direction conf price
        regime risk active0 pos0).registered = none ∧
    (execute_trade cfg rules equity cap env now symbol direction conf price
        regime risk active0 pos0).active = active0 ∧
    ExecAction.close_all symbol ∈
      (execute_trade cfg rules equity cap env now symbol direction conf price
        regime risk active0 pos0).actions := by
  unfold execute_trade
  rw [if_neg (not_le.mpr hatr), htpsl]
  dsimp only
  rw [if_neg (not_le.mpr hsize), if_neg (by simp [hguard]),
    if_neg (by simp [hacc]), if_pos (by simp [htp])]
  exact ⟨rfl, rfl, by simp⟩

/-- C2 (amended): whenever `execute_trade` reaches protective-order
placement (ATR valid, plan valid, size positive, guard passes, entry order
accepted) and the take-profit leg fails, it issues `close_all_positions`
and registers nothing; but the symbol's `active_trades` list is left
exactly as it was before the call, because the pre-trade cleanup dies on
the missing `cancel_all_plan_orders` before it can clear the metadata —
so any stale Trade registered earlier survives the failed call. -/
theorem tp_failure_closes (cfg : TPSLCalculator) (rules : SymbolRules)
    (equity cap : ℚ) (env : ExecEnv) (now : ℚ) (symbol : String)
    (direction : Direction) (conf price : ℚ) (regime : String) (risk : ℚ)
    (active0 : List Trade) (pos0 : ℚ) (tpsl : TPSLPlan)
    (hatr : 0 < env.atr)
    (htpsl : cfg.calculate_dynamic_tpsl price direction env.atr regime conf =
      some tpsl)
    (hsize : 0 < calculate_position_size equity cap rules price tpsl.stop_loss
      risk)
    (hguard : env.guard_allows = true)
    (hacc : env.order_accepted = true)
    (htp : env.tp_success = false) :
    (execute_trade cfg rules equity cap env now symbol direction conf price
        regime risk active0 pos0).registered = none ∧
    (execute_trade cfg rules equity cap env now symbol direction conf price
        regime risk active0 pos0).active = active0 ∧
    ExecAction.close_all symbol ∈
      (execute_trade cfg rules equity cap env now symbol direction conf price
        regime risk active0 pos0).actions :=
  tp_failure_closes_core cfg rules equity cap env now symbol direction conf
    price regime risk active0 pos0 tpsl hatr htpsl hsize hguard hacc htp

theorem dynamic_tpsl_eval_atr13 :
    botCalculator.calculate_dynamic_tpsl 100 Direction.LONG (13/10) "RANGE"
      (1/2) =
    some { take_profit := 2091/20, stop_loss := 487/5, risk_reward := 7/4 } := by
  norm_num [TPSLCalculator.calculate_dynamic_tpsl,
    TPSLCalculator.calculate_tp_sl, TPSLCalculator.validate_tp_sl,
    get_regime_multipliers_range, botCalculator, qmax, roundDec, rhe]

theorem position_size_eval_entry100 :
    calculate_position_size 1000 200 defaultRules 100 (487/5) (2/100) = 2 := by
  have h1 : capped_raw_size 1000 200 100 (487/5) (1/50) = 2 := by
    norm_num [capped_raw_size, qabs]
  have h2 : round_size_to_rules defaultRules 2 = 2 := by
    norm_num [round_size_to_rules, defaultRules, zmax, decimalsFor_thousandth,
      roundDec, rhe]
  norm_num [calculate_position_size, qabs, h1, h2]

/-- C2 witness: LONG at 100, ATR 1.3, confidence 0.5 in RANGE; plan TP
104.55 / SL 97.4, size 2; entry accepted, TP placement fails. -/
theorem tp_failure_closes_witness :
    (0:ℚ) < (ExecEnv.mk (13/10) true true (some "7") false).atr ∧
    botCalculator.calculate_dynamic_tpsl 100 Direction.LONG (13/10) "RANGE"
        (1/2) =
      some { take_profit := 2091/20, stop_loss := 487/5, risk_reward := 7/4 } ∧
    0 < calculate_position_size 1000 200 defaultRules 100 (487/5) (2/100) ∧
    ((execute_trade botCalculator defaultRules 1000 200
        (ExecEnv.mk (13/10) true true (some "7") false) 0 "cmt_btcusdt"
        Direction.LONG (1/2) 100 "RANGE" (2/100) [] 0).registered = none ∧
      (execute_trade botCalculator defaultRules 1000 200
        (ExecEnv.mk (13/10) true true (some "7") false) 0 "cmt_btcusdt"
        Direction.LONG (1/2) 100 "RANGE" (2/100) [] 0).active = [] ∧
      ExecAction.close_all "cmt_btcusdt" ∈
        (execute_trade botCalculator defaultRules 1000 200
          (ExecEnv.mk (13/10) true true (some "7") false) 0 "cmt_btcusdt"
          Direction.LONG (1/2) 100 "RANGE" (2/100) [] 0).actions) :=
  ⟨by norm_num, dynamic_tpsl_eval_atr13,
    by rw [position_size_eval_entry100]; norm_num,
    tp_failure_closes botCalculator defaultRules 1000 200
      (ExecEnv.mk (13/10) true true (some "7") false) 0 "cmt_btcusdt"
      Direction.LONG (1/2) 100 "RANGE" (2/100) [] 0
      { take_profit := 2091/20, stop_loss := 487/5, risk_reward := 7/4 }
      (by norm_num) dynamic_tpsl_eval_atr13
      (by rw [position_size_eval_entry100]; norm_num) rfl rfl rfl⟩

/-- C2 counterexample to the original wording: with a stale Trade already
registered for the symbol (a forced flip), the TP-failure path does issue
`close_all_positions`, yet the stale Trade is still in `active_trades`
afterwards — the pre-trade cleanup's `AttributeError` skipped the metadata
clear, so a Trade for the symbol remains in the active set. -/
theorem tp_failure_stale_trade_remains :
    (execute_trade botCalculator defaultRules 1000 200
        (ExecEnv.mk (13/10) true true (some "7") false) 0 "cmt_btcusdt"
        Direction.LONG (1/2) 100 "RANGE" (2/100) [riskTrade] 2).active =
      [riskTrade] ∧
    ([riskTrade] : List Trade) ≠ [] ∧
    ExecAction.close_all "cmt_btcusdt" ∈
      (execute_trade botCalculator defaultRules 1000 200
        (ExecEnv.mk (13/10) true true (some "7") false) 0 "cmt_btcusdt"
        Direction.LONG (1/2) 100 "RANGE" (2/100) [riskTrade] 2).actions := by
  have h := tp_failure_closes_core botCalculator defaultRules 1000 200
    (ExecEnv.mk (13/10) true true (some "7") false) 0 "cmt_btcusdt"
    Direction.LONG (1/2) 100 "RANGE" (2/100) [riskTrade] 2
    { take_profit := 2091/20, stop_loss := 487/5, risk_reward := 7/4 }
    (by norm_num) dynamic_tpsl_eval_atr13
    (by rw [position_size_eval_entry100]; norm_num) rfl rfl rfl
  exact ⟨h.2.1, by simp, h.2.2⟩

/-! ## C3: tier monotonicity and stop favourability -/

theorem ne_profit_loss : ("profit_plan" = "loss_plan") = False :=
  eq_false (by decide)

theorem truncQ_mono (x y : ℚ) (h : x ≤ y) : truncQ x ≤ truncQ y := by
  unfold truncQ
  split_ifs with hx hy hy
  · exact Int.ceil_le_ceil h
  · calc ⌈x⌉ ≤ 0 := Int.ceil_le.mpr (by exact_mod_cast hx.le)
      _ ≤ ⌊y⌋ := Int.floor_nonneg.mpr (not_lt.mp hy)
  · exact absurd (lt_of_le_of_lt h hy) hx
  · exact Int.floor_le_floor h

theorem round_price_to_step_mono (v w step : ℚ) (hs : 0 < step) (h : v ≤ w) :
    round_price_to_step v step ≤ round_price_to_step w step := by
  have hdiv : v / step ≤ w / step := by
    rw [div_le_div_iff_of_pos_right hs]
    exact h
  have h1 : ((rhe (v / step) : ℚ)) * step ≤ ((rhe (w / step) : ℚ)) * step :=
    mul_le_mul_of_nonneg_right (by exact_mod_cast rhe_mono _ _ hdiv) hs.le
  have h2 := roundDec_mono 4 _ _ h1
  unfold round_price_to_step
  dsimp only
  split_ifs
  · exact_mod_cast truncQ_mono _ _ h2
  · exact h2

theorem lockedProfitPct_mono (k1 k2 : ℕ) (hk : k1 ≤ k2) :
    lockedProfitPct k1 ≤ lockedProfitPct k2 := by
  unfold lockedProfitPct
  split_ifs <;> first | (exfalso; omega) | norm_num

theorem tier_lock_price_mono (rules : SymbolRules) (dir : Direction)
    (entry : ℚ) (hstep : 0 < rules.price_step) (he : 0 < entry)
    (k1 k2 : ℕ) (hk : k1 ≤ k2) :
    stop_not_worse dir (tier_lock_price rules dir entry k1)
      (tier_lock_price rules dir entry k2) := by
  have hp := lockedProfitPct_mono k1 k2 hk
  cases dir with
  | LONG =>
      exact round_price_to_step_mono _ _ _ hstep (by nlinarith)
  | SHORT =>
      exact round_price_to_step_mono _ _ _ hstep (by nlinarith)

theorem stop_not_worse_refl (dir : Direction) (s : ℚ) :
    stop_not_worse dir s s := by
  cases dir <;> exact le_refl s

theorem stop_not_worse_trans (dir : Direction) (a b c : ℚ)
    (h1 : stop_not_worse dir a b) (h2 : stop_not_worse dir b c) :
    stop_not_worse dir a c := by
  cases dir
  · exact le_trans h1 h2
  · exact le_trans h2 h1

/-- Closed form of the trade component of `manage_trade_step` for a trade
with a known direction. -/
theorem manage_trade_step_eq (rules : SymbolRules) (price : ℚ) (ok : Bool)
    (t : Trade) (dir : Direction) (hdir : t.direction = some dir) :
    (manage_trade_step rules price ok t).1 =
      (let entry := t.entry_price.getD 0
       if t.size ≤ 0 ∨ entry ≤ 0 then t
       else if price ≤ 0 then t
       else
         let lt := manage_lock_tier dir entry price
         if lt > t.profit_lock_tier.getD 0 then
           if ok then
             { t with profit_lock_tier := some lt,
                      stop_loss := some (tier_lock_price rules dir entry lt) }
           else t
         else t) := by
  unfold manage_trade_step tier_lock_price manage_lock_tier
  rw [hdir]
  cases dir <;> dsimp only <;> split_ifs <;> rfl

/-- One `manage_trade_step` never lowers the tier, keeps direction and
entry, preserves the stop invariant, and never moves the stop against the
position. -/
theorem manage_step_props (rules : SymbolRules) (price : ℚ) (ok : Bool)
    (t : Trade) (dir : Direction) (hstep : 0 < rules.price_step)
    (hdir : t.direction = some dir) (hinv : manage_stop_inv rules dir t) :
    t.profit_lock_tier.getD 0 ≤
      ((manage_trade_step rules price ok t).1).profit_lock_tier.getD 0 ∧
    ((manage_trade_step rules price ok t).1).direction = some dir ∧
    ((manage_trade_step rules price ok t).1).entry_price = t.entry_price ∧
    manage_stop_inv rules dir ((manage_trade_step rules price ok t).1) ∧
    (∀ s, t.stop_loss = some s → ∃ s',
      ((manage_trade_step rules price ok t).1).stop_loss = some s' ∧
      stop_not_worse dir s s') := by
  rw [manage_trade_step_eq rules price ok t dir hdir]
  dsimp only
  by_cases hguard : t.size ≤ 0 ∨ t.entry_price.getD 0 ≤ 0
  · rw [if_pos hguard]
    exact ⟨le_refl _, hdir, rfl, hinv,
      fun s hs => ⟨s, hs, stop_not_worse_refl dir s⟩⟩
  · rw [if_neg hguard]
    by_cases hprice : price ≤ 0
    · rw [if_pos hprice]
      exact ⟨le_refl _, hdir, rfl, hinv,
        fun s hs => ⟨s, hs, stop_not_worse_refl dir s⟩⟩
    · rw [if_neg hprice]
      have hepos : 0 < t.entry_price.getD 0 := by
        rcases not_or.mp hguard with ⟨_, h2⟩
        exact lt_of_not_le h2
      by_cases hup : manage_lock_tier dir (t.entry_price.getD 0) price >
          t.profit_lock_tier.getD 0
      · rw [if_pos hup]
        have hmax : Nat.max (manage_lock_tier dir (t.entry_price.getD 0) price)
            1 = manage_lock_tier dir (t.entry_price.getD 0) price :=
          Nat.max_eq_left (by omega)
        by_cases hok : ok
        · rw [if_pos hok]
          refine ⟨by simpa using le_of_lt hup, by simpa using hdir, by simp,
            ?_, ?_⟩
          · intro s hs
            simp only [Option.some.injEq] at hs
            subst hs
            simp only [Option.getD_some]
            rw [hmax]
            exact stop_not_worse_refl dir _
          · intro s hs
            have h1 := hinv s hs
            refine ⟨tier_lock_price rules dir (t.entry_price.getD 0)
              (manage_lock_tier dir (t.entry_price.getD 0) price), rfl, ?_⟩
            refine stop_not_worse_trans dir _ _ _ h1 ?_
            exact tier_lock_price_mono rules dir _ hstep hepos _ _
              (Nat.max_le.mpr ⟨by omega, by omega⟩)
        · rw [if_neg hok]
          exact ⟨le_refl _, hdir, rfl, hinv,
            fun s hs => ⟨s, hs, stop_not_worse_refl dir s⟩⟩
      · rw [if_neg hup]
        exact ⟨le_refl _, hdir, rfl, hinv,
          fun s hs => ⟨s, hs, stop_not_worse_refl dir s⟩⟩

/-- Over any sequence of management steps (`manage_run`), a trade's
`profit_lock_tier` is non-decreasing (a computed tier at or below the
current one causes no change) and the trade's recorded stop price, once
set, is never moved to a price less favorable to the position by the
management loop — for a trade whose stop satisfies the tier invariant, as
every freshly registered trade does. -/
theorem profit_lock_monotone (rules : SymbolRules) (steps : List (ℚ × Bool))
    (t : Trade) (dir : Direction) (hstep : 0 < rules.price_step)
    (hdir : t.direction = some dir) (hinv : manage_stop_inv rules dir t) :
    t.profit_lock_tier.getD 0 ≤
      (manage_run rules steps t).profit_lock_tier.getD 0 ∧
    (∀ s, t.stop_loss = some s → ∃ s',
      (manage_run rules steps t).stop_loss = some s' ∧
      stop_not_worse dir s s') := by
  induction steps generalizing t with
  | nil =>
      exact ⟨le_refl _, fun s hs => ⟨s, hs, stop_not_worse_refl dir s⟩⟩
  | cons p rest ih =>
      have hstep1 := manage_step_props rules p.1 p.2 t dir hstep hdir hinv
      have hrun : manage_run rules (p :: rest) t =
          manage_run rules rest ((manage_trade_step rules p.1 p.2 t).1) := rfl
      rw [hrun]
      have hrec := ih ((manage_trade_step rules p.1 p.2 t).1)
        hstep1.2.1 hstep1.2.2.2.1
      refine ⟨le_trans hstep1.1 hrec.1, ?_⟩
      intro s hs
      obtain ⟨s1, hs1, hw1⟩ := hstep1.2.2.2.2 s hs
      obtain ⟨s2, hs2, hw2⟩ := hrec.2 s1 hs1
      exact ⟨s2, hs2, stop_not_worse_trans dir _ _ _ hw1 hw2⟩

theorem ne_loss_profit : ("loss_plan" = "profit_plan") = False :=
  eq_false (by decide)

/-- C3: `profit_lock_tier` is non-decreasing and a stop, once set, is never
moved against the position by any later operation: (1) over any sequence
of management steps the tier never decreases and the stop only moves to
prices no less favorable (for trades satisfying the tier/stop invariant,
as every freshly registered trade does); (2) a completed reconciliation
body never cancels plan orders and never places a stop for a symbol that
already holds an active one (it only fills a missing stop); (3) when the
reconciliation body hits redundancy it dies on the missing
`cancel_all_plan_orders` and the whole pass aborts changing nothing — so
no stop is ever replaced, let alone loosened. `execute_trade` places no
stop at all (noise absorption), so no other operation touches stops. -/
theorem profit_lock_and_stop_monotone :
    (∀ (rules : SymbolRules) (steps : List (ℚ × Bool)) (t : Trade)
        (dir : Direction), 0 < rules.price_step → t.direction = some dir →
      manage_stop_inv rules dir t →
      t.profit_lock_tier.getD 0 ≤
          (manage_run rules steps t).profit_lock_tier.getD 0 ∧
        (∀ s, t.stop_loss = some s → ∃ s',
          (manage_run rules steps t).stop_loss = some s' ∧
          stop_not_worse dir s s')) ∧
    (∀ (ps : ℚ) (pos : PosData) (cp : ℚ) (plans : List PlanOrder)
        (r : List PlanOrder × List FixAction),
      check_and_fix_symbol ps pos cp plans = some r →
      FixAction.cancel_all_plans ∉ r.2 ∧
      ((plans.filter (is_sl_order pos)).isEmpty = false →
        ∀ x sz sd, FixAction.place_plan "loss_plan" x sz sd ∉ r.2)) ∧
    (∀ (s : SymbolPlanState) (rest : List SymbolPlanState),
      check_and_fix_symbol s.price_step s.pos s.current_price s.plans =
        none →
      check_and_fix_plans (s :: rest) = (s :: rest, [])) := by
  refine ⟨fun rules steps t dir h1 h2 h3 =>
    profit_lock_monotone rules steps t dir h1 h2 h3, ?_, ?_⟩
  · intro ps pos cp plans r h
    unfold check_and_fix_symbol at h
    dsimp only at h
    by_cases hnuke : ((plans.filter (is_sl_order pos)).length > 1 ∨
        (plans.filter (is_tp_order pos)).length > 1)
    · rw [if_pos hnuke] at h
      exact absurd h (by simp)
    · rw [if_neg hnuke] at h
      injection h with h
      subst h
      dsimp only
      constructor
      · by_cases hps : ((plans.filter (is_sl_order pos)).isEmpty = true ∧
            (if pos.entry = 0 ∧ cp > 0 then cp else pos.entry) > 0)
        · by_cases hpt : ((plans.filter (is_tp_order pos)).isEmpty = true ∧
              (if pos.entry = 0 ∧ cp > 0 then cp else pos.entry) > 0)
          · simp only [if_pos hps, if_pos hpt]
            simp
          · simp only [if_pos hps, if_neg hpt]
            simp
        · by_cases hpt : ((plans.filter (is_tp_order pos)).isEmpty = true ∧
              (if pos.entry = 0 ∧ cp > 0 then cp else pos.entry) > 0)
          · simp only [if_neg hps, if_pos hpt]
            simp
          · simp only [if_neg hps, if_neg hpt]
            simp
      · intro hne x sz sd
        have hps : ¬ ((plans.filter (is_sl_order pos)).isEmpty = true ∧
            (if pos.entry = 0 ∧ cp > 0 then cp else pos.entry) > 0) := by
          rintro ⟨h1, _⟩
          rw [hne] at h1
          exact Bool.false_ne_true h1
        by_cases hpt : ((plans.filter (is_tp_order pos)).isEmpty = true ∧
            (if pos.entry = 0 ∧ cp > 0 then cp else pos.entry) > 0)
        · simp only [if_neg hps, if_pos hpt]
          simp [ne_loss_profit]
        · simp only [if_neg hps, if_neg hpt]
          simp
  · intro s rest h
    simp only [check_and_fix_plans, h]

/-! ## C8: reconciliation idempotence -/

theorem fresh_sl_is_sl (pos : PosData) (x : ℚ) :
    is_sl_order pos ⟨"loss_plan", "", x, "new"⟩ = true := rfl
theorem fresh_sl_not_tp (pos : PosData) (x : ℚ) :
    is_tp_order pos ⟨"loss_plan", "", x, "new"⟩ = false := rfl
theorem fresh_tp_is_tp (pos : PosData) (x : ℚ) :
    is_tp_order pos ⟨"profit_plan", "", x, "new"⟩ = true := rfl
theorem fresh_tp_not_sl (pos : PosData) (x : ℚ) :
    is_sl_order pos ⟨"profit_plan", "", x, "new"⟩ = false := rfl

theorem fix_no_op (price_step : ℚ) (pos : PosData) (cp : ℚ)
    (plans : List PlanOrder)
    (hS : ¬ (plans.filter (is_sl_order pos)).length > 1)
    (hT : ¬ (plans.filter (is_tp_order pos)).length > 1)
    (hSm : (plans.filter (is_sl_order pos)).isEmpty = true →
      ¬ ((if pos.entry = 0 ∧ cp > 0 then cp else pos.entry) > 0))
    (hTm : (plans.filter (is_tp_order pos)).isEmpty = true →
      ¬ ((if pos.entry = 0 ∧ cp > 0 then cp else pos.entry) > 0)) :
    check_and_fix_symbol price_step pos cp plans = some (plans, []) := by
  unfold check_and_fix_symbol
  dsimp only
  have hnuke : ¬ ((plans.filter (is_sl_order pos)).length > 1 ∨
      (plans.filter (is_tp_order pos)).length > 1) := not_or.mpr ⟨hS, hT⟩
  simp only [if_neg hnuke]
  have hps : ¬ ((plans.filter (is_sl_order pos)).isEmpty = true ∧
      (if pos.entry = 0 ∧ cp > 0 then cp else pos.entry) > 0) := by
    rintro ⟨h1, h2⟩
    exact hSm h1 h2
  have hpt : ¬ ((plans.filter (is_tp_order pos)).isEmpty = true ∧
      (if pos.entry = 0 ∧ cp > 0 then cp else pos.entry) > 0) := by
    rintro ⟨h1, h2⟩
    exact hTm h1 h2
  simp only [if_neg hps, if_neg hpt]

theorem fix_post (price_step : ℚ) (pos : PosData) (cp : ℚ)
    (plans : List PlanOrder) (r : List PlanOrder × List FixAction)
    (hr : check_and_fix_symbol price_step pos cp plans = some r) :
    ¬ ((r.1.filter (is_sl_order pos)).length > 1) ∧
    ¬ ((r.1.filter (is_tp_order pos)).length > 1) ∧
    ((r.1.filter (is_sl_order pos)).isEmpty = true →
      ¬ ((if pos.entry = 0 ∧ cp > 0 then cp else pos.entry) > 0)) ∧
    ((r.1.filter (is_tp_order pos)).isEmpty = true →
      ¬ ((if pos.entry = 0 ∧ cp > 0 then cp else pos.entry) > 0)) := by
  unfold check_and_fix_symbol at hr
  dsimp only at hr
  by_cases hnuke : ((plans.filter (is_sl_order pos)).length > 1 ∨
      (plans.filter (is_tp_order pos)).length > 1)
  · rw [if_pos hnuke] at hr
    exact absurd hr (by simp)
  · rw [if_neg hnuke] at hr
    injection hr with hr
    subst hr
    dsimp only
    rw [not_or] at hnuke
    by_cases hps : ((plans.filter (is_sl_order pos)).isEmpty = true ∧
        (if pos.entry = 0 ∧ cp > 0 then cp else pos.entry) > 0)
    · simp only [if_pos hps]
      have hSnil : plans.filter (is_sl_order pos) = [] :=
        List.isEmpty_iff.mp hps.1
      by_cases hpt : ((plans.filter (is_tp_order pos)).isEmpty = true ∧
          (if pos.entry = 0 ∧ cp > 0 then cp else pos.entry) > 0)
      · have hTnil : plans.filter (is_tp_order pos) = [] :=
          List.isEmpty_iff.mp hpt.1
        simp only [if_pos hpt]
        simp [List.filter_append, hSnil, hTnil, fresh_sl_is_sl, fresh_sl_not_tp,
          fresh_tp_is_tp, fresh_tp_not_sl]
      · simp only [if_neg hpt]
        refine ⟨?_, ?_, ?_, ?_⟩
        · simp [List.filter_append, hSnil, fresh_sl_is_sl]
        · simpa [List.filter_append, fresh_sl_not_tp] using hnuke.2
        · simp [List.filter_append, hSnil, fresh_sl_is_sl]
        · intro h hE2
          rw [List.filter_append] at h
          simp [fresh_sl_not_tp] at h
          exact hpt ⟨by simpa using h, hE2⟩
    · simp only [if_neg hps]
      by_cases hpt : ((plans.filter (is_tp_order pos)).isEmpty = true ∧
          (if pos.entry = 0 ∧ cp > 0 then cp else pos.entry) > 0)
      · have hTnil : plans.filter (is_tp_order pos) = [] :=
          List.isEmpty_iff.mp hpt.1
        simp only [if_pos hpt]
        refine ⟨?_, ?_, ?_, ?_⟩
        · simpa [List.filter_append, fresh_tp_not_sl] using hnuke.1
        · simp [List.filter_append, hTnil, fresh_tp_is_tp]
        · intro h hE2
          rw [List.filter_append] at h
          simp [fresh_tp_not_sl] at h
          exact hps ⟨by simpa using h, hE2⟩
        · simp [List.filter_append, hTnil, fresh_tp_is_tp]
      · simp only [if_neg hpt]
        refine ⟨hnuke.1, hnuke.2, ?_, ?_⟩
        · intro h hE2
          exact hps ⟨h, hE2⟩
        · intro h hE2
          exact hpt ⟨h, hE2⟩

/-- C8: the reconciliation pass is idempotent. For any fixed exchange
state (per symbol: position, open plan orders, market price, price step)
with no intervening change, running `check_and_fix_plans` a second time
immediately after the first returns exactly the per-symbol order sets the
first run produced and issues no adapter call at all: no cancellation, no
duplicate stop or target. This holds on both execution paths: symbols the
first run completed hold at most one stop and one target (or a repairable
gap only when no positive entry/price reference exists, a condition the
pass cannot change), so the second run no-ops on them; and if the first
run aborted on a redundancy hit (the `AttributeError` of the missing
`cancel_all_plan_orders`), it changed nothing, so the second run hits the
same redundancy at the same symbol and aborts identically. (No branch of
the pass closes a position; positions are only read.) -/
theorem reconciliation_idempotent (L : List SymbolPlanState) :
    check_and_fix_plans (check_and_fix_plans L).1 =
      ((check_and_fix_plans L).1, []) := by
  induction L with
  | nil => rfl
  | cons s rest ih =>
      cases hfix : check_and_fix_symbol s.price_step s.pos s.current_price
          s.plans with
      | none =>
          simp only [check_and_fix_plans, hfix]
      | some r =>
          have hpost := fix_post s.price_step s.pos s.current_price s.plans r
            hfix
          have hnoop : check_and_fix_symbol s.price_step s.pos s.current_price
              r.1 = some (r.1, []) :=
            fix_no_op s.price_step s.pos s.current_price r.1 hpost.1
              hpost.2.1 hpost.2.2.1 hpost.2.2.2
          simp only [check_and_fix_plans, hfix]
          simp only [check_and_fix_plans, hnoop, ih, List.nil_append]

end Sentinel
